import Mathlib

/-!
Shallow embedding of `kartka_rs` (src/src/main.rs) and verification of its
specification claims.

The program is a small document-archiving tool.  Its effectful pieces (file
system, external processes `rg`/`magick`/`rclone`/tesseract OCR) are embedded
by explicit state passing: the content store (one directory, one text file per
document identifier) is an association list, external collaborators are
parameters returning `Except`/`Option` values, and process spawning results
are `Except Err CmdOut` where `CmdOut` carries the exit status and stdout that
`std::process::Command::output` reports.
-/

deriving instance DecidableEq for Except

namespace Kartka

/-- Error taxonomy of the embedded program.  In the Rust source all of these
are `eyre::Report` values produced by `?`/`bail!`; we keep them as a small
inductive so failure causes stay distinguishable in theorems. -/
inductive Err where
  /-- Case where `upload` bails because `File::create_new` found an existing file. -/
  | duplicateIdentifier (name : String) : Err
  /-- Directory listing / file IO failure. -/
  | ioError (msg : String) : Err
  /-- Failure of `Image::from_path` or `rusty_tesseract::image_to_string`. -/
  | ocrError (msg : String) : Err
  /-- Case where `Command::output()` itself failed (no process spawned). -/
  | spawnError (tool : String) : Err
  deriving DecidableEq, Repr

/-- Result of a successful `Command::output()` call: the child ran to
completion; its exit status and captured stdout are reported back. -/
structure CmdOut where
  status : Int
  stdout : String
  deriving DecidableEq, Repr

/-- The content store: the index directory, one entry per file.  The key is
the file name (the document identifier), the value the text body. -/
abbrev Store := List (String × String)

/-- Mirrors `struct UploadContent { name, content }`. -/
structure UploadContent where
  name : String
  content : String
  deriving DecidableEq, Repr

/-- Embeds `Kartka::upload`: `File::create_new(index_dir/name)` succeeds only if no
file with that name exists; otherwise the function bails.  On success the
content is written, i.e. the record is added to the store. -/
def upload (store : Store) (c : UploadContent) : Except Err Store :=
  if (store.lookup c.name).isSome then
    Except.error (Err.duplicateIdentifier c.name)
  else
    Except.ok ((c.name, c.content) :: store)

/-- One entry of a scan directory as `read_dir` yields it: the raw OS-level
bytes of the file name (what Rust's `OsString` ordering compares), together
with `file_name().to_str()` — `some` exactly when the bytes are valid
UTF-8. -/
structure DirEntry where
  nameBytes : List Nat
  nameUtf8 : Option String
  deriving DecidableEq, Repr

/-- Byte-wise lexicographic `≤` on file names, the order `OsString`'s `Ord`
implements and `entries.sort_by_key(|it| it.file_name())` sorts by. -/
def byteLe : List Nat → List Nat → Bool
  | [], _ => true
  | _ :: _, [] => false
  | a :: as, b :: bs =>
    if a < b then true
    else if b < a then false
    else byteLe as bs

/-- Sorting relation on directory entries: compare the raw name bytes. -/
def entryLe (a b : DirEntry) : Prop := byteLe a.nameBytes b.nameBytes = true

instance : DecidableRel entryLe := fun a b => by
  unfold entryLe
  infer_instance

/-- Rust `starts_with(".")` on a UTF-8 string: for the one-character pattern this
is exactly "the first character is `'.'`". -/
def startsWithDot (s : String) : Bool :=
  match s.data with
  | [] => false
  | c :: _ => c == '.'

/-- The skip test in `Kartka::read_and_index`:
`dir_entry.file_name().to_str().map(|it| it.starts_with(".")).unwrap_or(true)`
— an entry is skipped when its name is not valid UTF-8 or starts with the
hidden-file marker. -/
def skipped (e : DirEntry) : Bool :=
  (e.nameUtf8.map startsWithDot).getD true

/-- The OCR loop body of `Kartka::read_and_index`: walk the (already sorted)
entries, skip hidden/unreadable names, OCR each remaining page and append its
text plus a `'\n'` to the accumulated content. -/
def assemble (extract : DirEntry → Except Err String) :
    List DirEntry → String → Except Err String
  | [], acc => Except.ok acc
  | e :: rest, acc =>
    if skipped e then assemble extract rest acc
    else
      match extract e with
      | Except.error err => Except.error err
      | Except.ok out => assemble extract rest (acc ++ out ++ "\n")

/-- Embeds `Kartka::read_and_index`: list the directory (`listing`, an `Except`
since `read_dir` and collecting its entries can fail), sort the entries by
file name (Rust's `sort_by_key` is a stable sort; we embed it as insertion
sort, which is stable), assemble the page texts, and `upload` the result
under `output_name`. -/
def read_and_index (extract : DirEntry → Except Err String) (store : Store)
    (listing : Except Err (List DirEntry)) (output_name : String) :
    Except Err Store :=
  match listing with
  | Except.error e => Except.error e
  | Except.ok entries =>
    match assemble extract (List.insertionSort entryLe entries) "" with
    | Except.error e => Except.error e
    | Except.ok content => upload store ⟨output_name, content⟩

/-- Embeds `Kartka::scan`: mint a timestamped pdf name, run `read_and_index` over the
scan directory, create a temp dir, invoke `magick` to build the PDF, invoke
`rclone copy` (`upload_to_dropbox`), then prompt whether to delete the scan
sources.  Each external step is a parameter: `Except.error` is a failed
`Command::output()` / `tempdir()` / prompt call (propagated by `?`), while an
`Except.ok` `CmdOut` is a process that ran — its exit `status` is never
inspected by the source.  Deleting scan sources does not touch the index, so
the store is returned unchanged by that step. -/
def scan (extract : DirEntry → Except Err String) (store : Store)
    (listing : Except Err (List DirEntry)) (timestamp : String)
    (tempdirRes : Except Err Unit) (magick : Except Err CmdOut)
    (rcloneCopy : Except Err CmdOut) (confirm : Except Err Bool)
    (deleteScans : Except Err Unit) : Except Err Store :=
  match read_and_index extract store listing (timestamp ++ ".pdf") with
  | Except.error e => Except.error e
  | Except.ok store2 =>
    match tempdirRes with
    | Except.error e => Except.error e
    | Except.ok _ =>
      match magick with
      | Except.error e => Except.error e
      | Except.ok _ =>
        match rcloneCopy with
        | Except.error e => Except.error e
        | Except.ok _ =>
          match confirm with
          | Except.error e => Except.error e
          | Except.ok del =>
            if del then
              match deleteScans with
              | Except.error e => Except.error e
              | Except.ok _ => Except.ok store2
            else Except.ok store2

/-- The per-item loop of `Kartka::rehydrate`: for each missing identifier,
create a temp dir, `rclone copyto` the remote PDF, `magick` it back into page
images, delete the intermediate PDF, and run `read_and_index` over the temp
dir under the original remote identifier.  The exit statuses of `copyto` and
`magick` are never inspected by the source.  Alongside the store we return
the list of identifiers processed, in order (the source prints each). -/
def rehydrateLoop (tempdir : String → Except Err Unit)
    (copyto : String → Except Err CmdOut) (magick : String → Except Err CmdOut)
    (removePdf : String → Except Err Unit)
    (pages : String → Except Err (List DirEntry))
    (extract : DirEntry → Except Err String) :
    List String → Store → List String → Except Err (Store × List String)
  | [], store, pulled => Except.ok (store, pulled.reverse)
  | m :: rest, store, pulled =>
    match tempdir m with
    | Except.error e => Except.error e
    | Except.ok _ =>
      match copyto m with
      | Except.error e => Except.error e
      | Except.ok _ =>
        match magick m with
        | Except.error e => Except.error e
        | Except.ok _ =>
          match removePdf m with
          | Except.error e => Except.error e
          | Except.ok _ =>
            match read_and_index extract store (pages m) m with
            | Except.error e => Except.error e
            | Except.ok store2 =>
              rehydrateLoop tempdir copyto magick removePdf pages extract rest
                store2 (m :: pulled)

/-- Embeds `Kartka::rehydrate`: `lsf` is the parsed stdout of `rclone lsf dropbox:`
(one remote file name per line; `Except.error` covers a failed spawn or
non-UTF-8 stdout).  The source collects the lines into a `HashSet` — embedded
as `dedup` — lists the local index directory (the store keys, all valid
UTF-8 in this model), takes the set difference, and runs the loop over the
missing identifiers. -/
def rehydrate (lsf : Except Err (List String))
    (tempdir : String → Except Err Unit)
    (copyto : String → Except Err CmdOut) (magick : String → Except Err CmdOut)
    (removePdf : String → Except Err Unit)
    (pages : String → Except Err (List DirEntry))
    (extract : DirEntry → Except Err String) (store : Store) :
    Except Err (Store × List String) :=
  match lsf with
  | Except.error e => Except.error e
  | Except.ok remoteLines =>
    rehydrateLoop tempdir copyto magick removePdf pages extract
      (remoteLines.dedup.filter (fun r => !((store.map Prod.fst).contains r)))
      store []

/-- JSON values, the shape `serde_json::Value` exposes of ripgrep's
line-delimited output. -/
inductive Json where
  | null : Json
  | bool (b : Bool) : Json
  | num (n : Int) : Json
  | str (s : String) : Json
  | arr (elems : List Json) : Json
  | obj (fields : List (String × Json)) : Json
  deriving Repr

/-- Field lookup on a JSON object; `none` on a missing field or a non-object,
matching an empty `JsonPath::find_slice` result. -/
def jsonField : Json → String → Option Json
  | Json.obj fields, key => fields.lookup key
  | _, _ => none

/-- Embeds `Value::as_str`. -/
def asStr : Json → Option String
  | Json.str s => some s
  | _ => none

/-- Embeds `extract_path`: follow a path of object fields and read the result as a
string.  The Rust function indexes `find_slice(value)[0]` and calls
`.as_str().unwrap()`, so a missing field or a non-string value is a panic —
embedded as `none`. -/
def extract_path (value : Json) (path : List String) : Option String :=
  (path.foldl (fun acc key => acc.bind (fun v => jsonField v key)) (some value)).bind asStr

/-- The JsonPath `$.type`. -/
def typePath : List String := ["type"]

/-- The JsonPath `$.data.path.text`. -/
def dataPathText : List String := ["data", "path", "text"]

/-- Splitting a character list on the path separator `'/'`. -/
def splitOnSlash : List Char → List (List Char)
  | [] => [[]]
  | c :: rest =>
    if c == '/' then [] :: splitOnSlash rest
    else
      match splitOnSlash rest with
      | [] => [[c]]
      | g :: gs => (c :: g) :: gs

/-- Embeds `Path::new(p).file_name().and_then(OsStr::to_str)`: the final normal
component of the path (empty and `.` components are normalized away;
a path ending in `..` or having no component yields `None`).  The input is a
Rust `String`, so `to_str` always succeeds. -/
def fileName (p : String) : Option String :=
  let comps := (splitOnSlash p.data).filter
    (fun c => !(c.isEmpty) && !(c == ['.']))
  match comps.getLast? with
  | none => none
  | some c => if c == ['.', '.'] then none else some (String.mk c)

/-- Processing of one ripgrep stdout line inside `Kartka::search`'s iterator
chain.  Outer `none` is a panic (`serde_json::from_str(..).unwrap()` on a
non-JSON line, or an `extract_path` unwrap); inner `none` means the line
contributes no identifier (a non-`"match"` record, or a path with no file
name — dropped silently by `flat_map`); `some (some id)` contributes `id`. -/
def processLine (parse : String → Option Json) (line : String) :
    Option (Option String) :=
  match parse line with
  | none => none
  | some j =>
    match extract_path j typePath with
    | none => none
    | some ty =>
      if ty == "match" then
        match extract_path j dataPathText with
        | none => none
        | some p => some (fileName p)
      else some none

/-- Consuming the whole iterator chain: process the stdout lines in order,
aborting on the first panic, collecting the contributed identifiers. -/
def collectLines (parse : String → Option Json) :
    List String → Option (List String)
  | [] => some []
  | l :: rest =>
    match processLine parse l with
    | none => none
    | some r =>
      match collectLines parse rest with
      | none => none
      | some rs =>
        match r with
        | some id => some (id :: rs)
        | none => some rs

/-- Embeds `Kartka::search`, up to the `ids` set: run the chain over ripgrep's
stdout lines and collect into a `HashSet` (a `Finset` here).  `parse` is the
external `serde_json` line parser; `none` marks a line that is not valid
JSON.  The link formatting and printing that follow in the source do not
touch the set and are omitted. -/
def search (parse : String → Option Json) (stdoutLines : List String) :
    Option (Finset String) :=
  (collectLines parse stdoutLines).map List.toFinset

/-- The claim's description of the query result, written from the spec's
words: keep only lines whose type tag equals `"match"`, extract each kept
record's file path field, take its final path component, deduplicate. -/
def queryClaimSpec (parse : String → Option Json) (stdoutLines : List String) :
    Finset String :=
  (((stdoutLines.filterMap parse).filter
      (fun j => extract_path j typePath == some "match")).filterMap
    (fun j => (extract_path j dataPathText).bind fileName)).toFinset

/-- Modelled from the spec: the search boundary of the repository's thin HTTP
server variant, which is part of the repository but not under `src/` (the
spec's line budget counts "two overlapping variants of the same logic plus a
thin HTTP server"; only one CLI variant is present in `src/src/main.rs`).
Per the spec: "Empty query string is treated as 'no results' at the boundary,
not forwarded to the search tool."  `runTool` runs the external search tool
on the query and yields its stdout lines; the second component counts how
many times the tool was invoked. -/
def searchAtBoundary (runTool : String → List String)
    (parse : String → Option Json) (query : String) :
    Option (Finset String) × Nat :=
  if query = "" then (some ∅, 0)
  else (search parse (runTool query), 1)

/-- The spec's description of the assembled body: each page's text followed
by exactly one newline separator, concatenated in the given order. -/
def concatTexts : List String → String
  | [] => ""
  | s :: rest => s ++ "\n" ++ concatTexts rest

/-- The missing set `RemoteListing − LocalIdentifiers` exactly as `rehydrate`
computes it: deduplicated remote names not present among the store keys. -/
def missingOf (remoteLines : List String) (store : Store) : List String :=
  remoteLines.dedup.filter (fun r => !((store.map Prod.fst).contains r))

/-- The body `rehydrate` stores for one pulled identifier: the page texts of
its rasterized pages, hidden/unreadable names excluded, in byte-wise
ascending filename order, each followed by a newline. -/
def bodyOf (pgs : String → List DirEntry) (text : DirEntry → String)
    (m : String) : String :=
  concatTexts
    (((List.insertionSort entryLe (pgs m)).filter (fun e => !(skipped e))).map text)

/-! Concrete instances used by the witness theorems. -/

/-- Page `a.png` (bytes of the name, and its UTF-8 reading). -/
def pageA : DirEntry := ⟨[97, 46, 112, 110, 103], some "a.png"⟩

/-- Page `b.png`. -/
def pageB : DirEntry := ⟨[98, 46, 112, 110, 103], some "b.png"⟩

/-- Page `c.png`. -/
def pageC : DirEntry := ⟨[99, 46, 112, 110, 103], some "c.png"⟩

/-- A hidden entry named `.DS_Store`. -/
def pageHidden : DirEntry := ⟨[46, 68, 83, 95, 83, 116, 111, 114, 101], some ".DS_Store"⟩

/-- A concrete OCR collaborator: recognizes the three example pages and
fails on anything else (in particular on the hidden entry). -/
def exampleExtract : DirEntry → Except Err String := fun e =>
  match e.nameUtf8 with
  | some "a.png" => Except.ok "Hello"
  | some "b.png" => Except.ok "World"
  | some "c.png" => Except.ok "Third"
  | _ => Except.error (Err.ocrError "unreadable page")

/-- The pure text function agreeing with `exampleExtract` on readable pages. -/
def exampleText : DirEntry → String := fun e =>
  match e.nameUtf8 with
  | some "a.png" => "Hello"
  | some "b.png" => "World"
  | some "c.png" => "Third"
  | _ => ""

/-- A ripgrep `"match"` record pointing at file path `p`. -/
def matchRecord (p : String) : Json :=
  Json.obj [("type", Json.str "match"),
    ("data", Json.obj [("path", Json.obj [("text", Json.str p)])])]

/-- A ripgrep `"begin"` record, carrying no `data.path.text` field. -/
def beginRecord : Json := Json.obj [("type", Json.str "begin")]

/-- A concrete line parser: three `"match"` lines for paths ending in
`doc1.txt`, one for `doc2.txt`, one `"begin"` line; anything else is not
valid JSON. -/
def exampleParse : String → Option Json
  | "m1" => some (matchRecord "docs/doc1.txt")
  | "m2" => some (matchRecord "sub/doc1.txt")
  | "m3" => some (matchRecord "doc1.txt")
  | "m4" => some (matchRecord "docs/doc2.txt")
  | "b" => some beginRecord
  | _ => none

/-- Remote-copy collaborator that runs and exits cleanly. -/
def okCmd : String → Except Err CmdOut := fun _ => Except.ok ⟨0, ""⟩

/-- Scoped-tempdir / remove-file collaborator that succeeds. -/
def okUnit : String → Except Err Unit := fun _ => Except.ok ()

/-- Rasterization that produces no page images. -/
def noPages : String → Except Err (List DirEntry) := fun _ => Except.ok []

/-- A collaborator whose very invocation would fail: used to show a run that
must not invoke it. -/
def failCmd : String → Except Err CmdOut := fun _ =>
  Except.error (Err.spawnError "rclone")

/-- A tempdir/remove collaborator whose invocation would fail. -/
def failUnit : String → Except Err Unit := fun _ =>
  Except.error (Err.ioError "tempdir")

/-- A page-listing collaborator whose invocation would fail. -/
def failPages : String → Except Err (List DirEntry) := fun _ =>
  Except.error (Err.ioError "read_dir")

/-- An OCR collaborator whose invocation would fail. -/
def failExtract : DirEntry → Except Err String := fun _ =>
  Except.error (Err.ocrError "tesseract missing")

/-! ### Basic facts about the byte-wise filename order -/

theorem byteLe_total : ∀ a b : List Nat, byteLe a b = true ∨ byteLe b a = true := by
  intro a
  induction a with
  | nil => intro b; left; cases b <;> rfl
  | cons x xs ih =>
    intro b
    cases b with
    | nil => right; rfl
    | cons y ys =>
      simp only [byteLe]
      rcases Nat.lt_trichotomy x y with h | h | h
      · left; simp [h]
      · subst h
        simp only [Nat.lt_irrefl, if_false]
        exact ih ys
      · right; simp [h]

theorem byteLe_trans : ∀ a b c : List Nat,
    byteLe a b = true → byteLe b c = true → byteLe a c = true := by
  intro a
  induction a with
  | nil => intro b c _ _; cases c <;> rfl
  | cons x xs ih =>
    intro b c hab hbc
    cases b with
    | nil => simp [byteLe] at hab
    | cons y ys =>
      cases c with
      | nil => simp [byteLe] at hbc
      | cons z zs =>
        simp only [byteLe] at hab hbc ⊢
        by_cases hxy : x < y
        · by_cases hyz : y < z
          · simp [Nat.lt_trans hxy hyz]
          · by_cases hzy : z < y
            · simp [hyz, hzy] at hbc
            · have hyzeq : y = z := Nat.le_antisymm (Nat.not_lt.mp hzy) (Nat.not_lt.mp hyz)
              subst hyzeq
              simp [hxy]
        · by_cases hyx : y < x
          · simp [hxy, hyx] at hab
          · have hxyeq : x = y := Nat.le_antisymm (Nat.not_lt.mp hyx) (Nat.not_lt.mp hxy)
            subst hxyeq
            simp only [Nat.lt_irrefl, if_false] at hab
            by_cases hxz : x < z
            · simp [hxz]
            · by_cases hzx : z < x
              · simp [hxz, hzx] at hbc
              · have hxzeq : x = z := Nat.le_antisymm (Nat.not_lt.mp hzx) (Nat.not_lt.mp hxz)
                subst hxzeq
                simp only [Nat.lt_irrefl, if_false] at hbc ⊢
                exact ih ys zs hab hbc

instance : IsTotal DirEntry entryLe :=
  ⟨fun a b => byteLe_total a.nameBytes b.nameBytes⟩

instance : IsTrans DirEntry entryLe :=
  ⟨fun a b c hab hbc => byteLe_trans a.nameBytes b.nameBytes c.nameBytes hab hbc⟩

/-! ### The association-list store -/

theorem lookup_isSome_iff (store : Store) (k : String) :
    (store.lookup k).isSome = true ↔ k ∈ store.map Prod.fst := by
  induction store with
  | nil => simp [List.lookup]
  | cons p rest ih =>
    cases p with
    | mk a b =>
      by_cases h : k = a
      · subst h; simp [List.lookup]
      · have hba : (k == a) = false := beq_eq_false_iff_ne.mpr h
        simp only [List.lookup, hba, List.map_cons, List.mem_cons]
        rw [ih]
        constructor
        · intro hm; exact Or.inr hm
        · intro hm
          rcases hm with h1 | h1
          · exact absurd h1 h
          · exact h1

theorem lookup_eq_none_iff (store : Store) (k : String) :
    store.lookup k = none ↔ ¬ k ∈ store.map Prod.fst := by
  rw [← lookup_isSome_iff]
  cases store.lookup k <;> simp

/-! ### Characterizing the OCR assembly loop -/

theorem assemble_ok (extract : DirEntry → Except Err String)
    (text : DirEntry → String) :
    ∀ (l : List DirEntry) (acc : String),
      (∀ e ∈ l, skipped e = false → extract e = Except.ok (text e)) →
      assemble extract l acc =
        Except.ok (acc ++ concatTexts ((l.filter (fun e => !(skipped e))).map text)) := by
  intro l
  induction l with
  | nil => intro acc _; simp [assemble, concatTexts]
  | cons e rest ih =>
    intro acc h
    by_cases hs : skipped e = true
    · simp [assemble, hs, List.filter_cons]
      exact ih acc (fun e2 he2 => h e2 (List.mem_cons_of_mem _ he2))
    · have hs2 : skipped e = false := by simpa using hs
      have hx : extract e = Except.ok (text e) := h e (List.mem_cons_self e rest) hs2
      simp only [assemble, hs2, Bool.false_eq_true, if_false, hx, List.filter_cons,
        Bool.not_false, if_true, List.map_cons, concatTexts]
      rw [ih (acc ++ text e ++ "\n") (fun e2 he2 => h e2 (List.mem_cons_of_mem _ he2))]
      simp [String.append_assoc]

theorem read_and_index_ok (extract : DirEntry → Except Err String)
    (text : DirEntry → String) (store : Store) (entries : List DirEntry)
    (name : String)
    (hext : ∀ e ∈ entries, skipped e = false → extract e = Except.ok (text e))
    (hfresh : store.lookup name = none) :
    read_and_index extract store (Except.ok entries) name =
      Except.ok ((name,
        concatTexts (((List.insertionSort entryLe entries).filter
          (fun e => !(skipped e))).map text)) :: store) := by
  have hext2 : ∀ e ∈ List.insertionSort entryLe entries,
      skipped e = false → extract e = Except.ok (text e) := by
    intro e he
    exact hext e ((List.mem_insertionSort entryLe).mp he)
  simp only [read_and_index]
  rw [assemble_ok extract text _ "" hext2]
  simp [upload, hfresh]

/-! ### Stability of the sort: filtering commutes with sorting -/

theorem orderedInsert_eq_cons_of_forall (a : DirEntry) (l : List DirEntry)
    (h : ∀ x ∈ l, entryLe a x) : List.orderedInsert entryLe a l = a :: l := by
  cases l with
  | nil => rfl
  | cons b t => simp [List.orderedInsert, h b (List.mem_cons_self b t)]

theorem filter_orderedInsert_neg (p : DirEntry → Bool) (a : DirEntry)
    (h : p a = false) :
    ∀ l : List DirEntry,
      (List.orderedInsert entryLe a l).filter p = l.filter p := by
  intro l
  induction l with
  | nil => simp [List.orderedInsert, h]
  | cons b t ih =>
    by_cases hab : entryLe a b
    · simp [List.orderedInsert, hab, List.filter_cons, h]
    · simp [List.orderedInsert, hab, List.filter_cons, ih]

theorem filter_orderedInsert_pos (p : DirEntry → Bool) (a : DirEntry)
    (h : p a = true) :
    ∀ l : List DirEntry, List.Sorted entryLe l →
      (List.orderedInsert entryLe a l).filter p =
        List.orderedInsert entryLe a (l.filter p) := by
  intro l
  induction l with
  | nil => intro _; simp [List.orderedInsert, h]
  | cons b t ih =>
    intro hsort
    have hbt : ∀ x ∈ t, entryLe b x := (List.sorted_cons.mp hsort).1
    have htsort : List.Sorted entryLe t := (List.sorted_cons.mp hsort).2
    by_cases hab : entryLe a b
    · by_cases hpb : p b = true
      · simp [List.orderedInsert, hab, List.filter_cons, h, hpb]
      · have hpb2 : p b = false := by simpa using hpb
        have hall : ∀ x ∈ t.filter p, entryLe a x := by
          intro x hx
          exact byteLe_trans _ _ _ hab (hbt x (List.mem_of_mem_filter hx))
        rw [List.orderedInsert, if_pos hab]
        rw [List.filter_cons_of_pos h, List.filter_cons_of_neg (by simp [hpb2])]
        exact (orderedInsert_eq_cons_of_forall a _ hall).symm
    · rw [List.orderedInsert, if_neg hab]
      by_cases hpb : p b = true
      · rw [List.filter_cons_of_pos hpb, List.filter_cons_of_pos hpb,
          ih htsort, List.orderedInsert, if_neg hab]
      · have hpb2 : p b = false := by simpa using hpb
        rw [List.filter_cons_of_neg (by simp [hpb2]),
          List.filter_cons_of_neg (by simp [hpb2]), ih htsort]

theorem filter_insertionSort (p : DirEntry → Bool) :
    ∀ l : List DirEntry,
      (List.insertionSort entryLe l).filter p =
        List.insertionSort entryLe (l.filter p) := by
  intro l
  induction l with
  | nil => rfl
  | cons a t ih =>
    by_cases hpa : p a = true
    · rw [List.insertionSort,
        filter_orderedInsert_pos p a hpa _ (List.sorted_insertionSort entryLe t),
        ih, List.filter_cons_of_pos hpa, List.insertionSort]
    · have hpa2 : p a = false := by simpa using hpa
      rw [List.insertionSort, filter_orderedInsert_neg p a hpa2, ih,
        List.filter_cons_of_neg (by simp [hpa2])]

theorem assemble_filter (extract : DirEntry → Except Err String) :
    ∀ (l : List DirEntry) (acc : String),
      assemble extract (l.filter (fun e => !(skipped e))) acc =
        assemble extract l acc := by
  intro l
  induction l with
  | nil => intro acc; rfl
  | cons e rest ih =>
    intro acc
    by_cases hs : skipped e = true
    · rw [List.filter_cons_of_neg (by simp [hs])]
      rw [show assemble extract (e :: rest) acc = assemble extract rest acc from by
        simp [assemble, hs]]
      exact ih acc
    · have hs2 : skipped e = false := by simpa using hs
      rw [List.filter_cons_of_pos (by simp [hs2])]
      simp only [assemble, hs2, Bool.false_eq_true, if_false]
      cases extract e with
      | error err => rfl
      | ok out => exact ih (acc ++ out ++ "\n")

/-! ### Claims about the content store and the ingest path -/

/-- C1: for every identifier `k` and bodies `v1`, `v2`: after `put(k, v1)`
succeeds, a second `put(k, v2)` fails with an error (it does not overwrite),
and the stored body for `k` after both calls equals `v1`. -/
theorem claim_C1_put_unique (store store1 : Store) (k v1 v2 : String)
    (h : upload store ⟨k, v1⟩ = Except.ok store1) :
    upload store1 ⟨k, v2⟩ = Except.error (Err.duplicateIdentifier k) ∧
      store1.lookup k = some v1 := by
  unfold upload at h
  by_cases hl : (store.lookup k).isSome = true
  · simp [hl] at h
  · simp only [hl, if_false, Bool.false_eq_true, Except.ok.injEq] at h
    rw [← h]
    constructor
    · simp [upload, List.lookup]
    · simp [List.lookup]

/-- Witness for C1 at a concrete store and identifier. -/
theorem claim_C1_witness :
    upload [("k", "v1")] ⟨"k", "v2"⟩ =
        Except.error (Err.duplicateIdentifier "k") ∧
      List.lookup "k" [("k", "v1")] = some "v1" :=
  claim_C1_put_unique [] [("k", "v1")] "k" "v1" "v2" (by decide)

/-- C4: for every directory of page files, the assembled body equals the
concatenation, over the non-excluded entries in ascending byte-wise filename
order, of each page text followed by exactly one newline; the sorted entry
list is sorted under the byte-wise order and its non-excluded part is a
permutation of the non-excluded input entries. -/
theorem claim_C4_ordered_concat (extract : DirEntry → Except Err String)
    (text : DirEntry → String) (store : Store) (entries : List DirEntry)
    (name : String)
    (hext : ∀ e ∈ entries, skipped e = false → extract e = Except.ok (text e))
    (hfresh : store.lookup name = none) :
    read_and_index extract store (Except.ok entries) name =
      Except.ok ((name,
          concatTexts (((List.insertionSort entryLe entries).filter
            (fun e => !(skipped e))).map text)) :: store) ∧
    List.Sorted entryLe (List.insertionSort entryLe entries) ∧
    List.Perm
      ((List.insertionSort entryLe entries).filter (fun e => !(skipped e)))
      (entries.filter (fun e => !(skipped e))) := by
  refine ⟨read_and_index_ok extract text store entries name hext hfresh,
    List.sorted_insertionSort entryLe entries, ?_⟩
  exact (List.perm_insertionSort entryLe entries).filter _

/-- Witness for C4: pages `a.png, c.png, b.png` contribute their texts in
the order `a, b, c`, each followed by one newline. -/
theorem claim_C4_witness :
    read_and_index exampleExtract [] (Except.ok [pageA, pageC, pageB]) "out" =
      Except.ok [("out", "Hello\nWorld\nThird\n")] := by
  have h := (claim_C4_ordered_concat exampleExtract exampleText []
    [pageA, pageC, pageB] "out" (by decide) (by decide)).1
  rw [h]
  rfl

/-- C9: entries whose name begins with the hidden-file marker or cannot be
read as text are excluded from batch processing — `read_and_index` behaves
exactly as if they were absent, so their text never appears in the body and
their presence cannot cause a failure. -/
theorem claim_C9_hidden_excluded (extract : DirEntry → Except Err String)
    (store : Store) (entries : List DirEntry) (name : String) :
    read_and_index extract store (Except.ok entries) name =
      read_and_index extract store
        (Except.ok (entries.filter (fun e => !(skipped e)))) name := by
  have h1 : assemble extract (List.insertionSort entryLe entries) "" =
      assemble extract
        (List.insertionSort entryLe (entries.filter (fun e => !(skipped e)))) "" := by
    rw [← assemble_filter extract (List.insertionSort entryLe entries) "",
      filter_insertionSort]
  simp only [read_and_index, h1]

/-- C10: a scan directory with zero eligible entries still creates a record
with the empty body under the minted identifier — no failure. -/
theorem claim_C10_empty_batch (extract : DirEntry → Except Err String)
    (store : Store) (entries : List DirEntry) (name : String)
    (hall : ∀ e ∈ entries, skipped e = true)
    (hfresh : store.lookup name = none) :
    read_and_index extract store (Except.ok entries) name =
      Except.ok ((name, "") :: store) := by
  have hfilter : (List.insertionSort entryLe entries).filter
      (fun e => !(skipped e)) = [] := by
    rw [filter_insertionSort]
    have h0 : entries.filter (fun e => !(skipped e)) = [] := by
      rw [List.filter_eq_nil_iff]
      intro e he
      simp [hall e he]
    rw [h0]
    rfl
  have h := read_and_index_ok extract (fun _ => "") store entries name
    (fun e he hf => absurd (hall e he) (by simp [hf])) hfresh
  rw [h, hfilter]
  rfl

/-- Witness for C10: a directory holding only `.DS_Store`, with an OCR
collaborator that would fail on any page, still yields an empty-bodied
record. -/
theorem claim_C10_witness :
    read_and_index failExtract [] (Except.ok [pageHidden]) "2024_01_01_00_00_00.pdf" =
      Except.ok [("2024_01_01_00_00_00.pdf", "")] :=
  claim_C10_empty_batch failExtract [] [pageHidden] "2024_01_01_00_00_00.pdf"
    (by decide) (by decide)

/-! ### Claims about the search pipeline -/

theorem collectLines_mem_isSome (parse : String → Option Json) :
    ∀ (lines : List String) (rs : List String),
      collectLines parse lines = some rs →
      ∀ l ∈ lines, (processLine parse l).isSome = true := by
  intro lines
  induction lines with
  | nil => intro rs _ l hl; cases hl
  | cons l0 rest ih =>
    intro rs h l hl
    simp only [collectLines] at h
    cases hp : processLine parse l0 with
    | none => rw [hp] at h; cases h
    | some r =>
      rw [hp] at h
      cases hc : collectLines parse rest with
      | none => rw [hc] at h; cases h
      | some rs2 =>
        rw [hc] at h
        rcases List.mem_cons.mp hl with h1 | h1
        · subst h1; simp [hp]
        · exact ih rs2 hc l h1

theorem collectLines_eq_filterMap (parse : String → Option Json) :
    ∀ (lines : List String) (rs : List String),
      collectLines parse lines = some rs →
      rs = lines.filterMap (fun l => (processLine parse l).getD none) := by
  intro lines
  induction lines with
  | nil => intro rs h; cases h; rfl
  | cons l0 rest ih =>
    intro rs h
    simp only [collectLines] at h
    cases hp : processLine parse l0 with
    | none => rw [hp] at h; cases h
    | some r =>
      rw [hp] at h
      cases hc : collectLines parse rest with
      | none => rw [hc] at h; cases h
      | some rs2 =>
        rw [hc] at h
        cases r with
        | none =>
          simp only [Option.some.injEq] at h
          rw [← h, List.filterMap_cons, hp, Option.getD_some]
          exact ih rs2 hc
        | some idn =>
          simp only [Option.some.injEq] at h
          rw [← h, List.filterMap_cons, hp, Option.getD_some]
          rw [ih rs2 hc]

theorem filterMap_processLine_eq_spec (parse : String → Option Json) :
    ∀ lines : List String,
      (∀ l ∈ lines, (processLine parse l).isSome = true) →
      lines.filterMap (fun l => (processLine parse l).getD none) =
        ((lines.filterMap parse).filter
            (fun j => extract_path j typePath == some "match")).filterMap
          (fun j => (extract_path j dataPathText).bind fileName) := by
  intro lines
  induction lines with
  | nil => intro _; rfl
  | cons l0 rest ih =>
    intro h
    have h0 : (processLine parse l0).isSome = true :=
      h l0 (List.mem_cons_self l0 rest)
    have hrest : ∀ l ∈ rest, (processLine parse l).isSome = true :=
      fun l hl => h l (List.mem_cons_of_mem _ hl)
    rw [List.filterMap_cons, List.filterMap_cons]
    cases hp : parse l0 with
    | none => simp [processLine, hp] at h0
    | some j =>
      cases hty : extract_path j typePath with
      | none => simp [processLine, hp, hty] at h0
      | some ty =>
        by_cases hm : ty = "match"
        · subst hm
          cases hdp : extract_path j dataPathText with
          | none => simp [processLine, hp, hty, hdp] at h0
          | some p =>
            have hpl : processLine parse l0 = some (fileName p) := by
              simp [processLine, hp, hty, hdp]
            rw [hpl, Option.getD_some]
            rw [List.filter_cons_of_pos (by simp [hty]), List.filterMap_cons, hdp,
              Option.some_bind]
            cases hfn : fileName p with
            | none => exact ih hrest
            | some idn => rw [ih hrest]
        · have hpl : processLine parse l0 = some none := by
            simp [processLine, hp, hty, hm]
          rw [hpl, Option.getD_some]
          rw [List.filter_cons_of_neg (by simp [hty, hm])]
          exact ih hrest

/-- C5: whenever `search` succeeds, its result is exactly the deduplicated
set described by the spec: keep the `"match"` records, extract each kept
record file path, take its final path component, deduplicate. -/
theorem claim_C5_search_dedup (parse : String → Option Json)
    (lines : List String) (s : Finset String)
    (h : search parse lines = some s) :
    s = queryClaimSpec parse lines := by
  simp only [search] at h
  cases hc : collectLines parse lines with
  | none => rw [hc] at h; cases h
  | some rs =>
    rw [hc] at h
    simp only [Option.map, Option.some.injEq] at h
    rw [← h, queryClaimSpec,
      ← filterMap_processLine_eq_spec parse lines
        (collectLines_mem_isSome parse lines rs hc),
      ← collectLines_eq_filterMap parse lines rs hc]

/-- Witness for C5: three `"match"` lines whose paths end in `doc1.txt` and
one ending in `doc2.txt` (plus a `"begin"` line) give exactly the
two-element set. -/
theorem claim_C5_witness :
    search exampleParse ["m1", "b", "m2", "m3", "m4"] =
        some ({"doc1.txt", "doc2.txt"} : Finset String) ∧
      ({"doc1.txt", "doc2.txt"} : Finset String) =
        queryClaimSpec exampleParse ["m1", "b", "m2", "m3", "m4"] :=
  ⟨by decide,
    claim_C5_search_dedup exampleParse ["m1", "b", "m2", "m3", "m4"]
      {"doc1.txt", "doc2.txt"} (by decide)⟩

/-- C6: the empty query is answered with the empty result set at the
boundary, with zero invocations of the external search tool, whatever the
tool would have returned. -/
theorem claim_C6_empty_query (runTool : String → List String)
    (parse : String → Option Json) :
    searchAtBoundary runTool parse "" = (some (∅ : Finset String), 0) := by
  simp [searchAtBoundary]

theorem processLine_eq_none_iff (parse : String → Option Json) (l : String) :
    processLine parse l = none ↔
      (parse l = none ∨ ∃ j, parse l = some j ∧
        (extract_path j typePath = none ∨
          (extract_path j typePath = some "match" ∧
            extract_path j dataPathText = none))) := by
  cases hp : parse l with
  | none => simp [processLine, hp]
  | some j =>
    simp only [processLine, hp, Option.some.injEq]
    cases hty : extract_path j typePath with
    | none => simp [hty]
    | some ty =>
      by_cases hm : ty = "match"
      · subst hm
        cases hdp : extract_path j dataPathText with
        | none => simp [hdp, hty]
        | some p => simp [hdp, hty]
      · simp [hm, hty, Ne.symm hm]

theorem collectLines_eq_none_iff (parse : String → Option Json) :
    ∀ lines : List String,
      collectLines parse lines = none ↔
        ∃ l ∈ lines, processLine parse l = none := by
  intro lines
  induction lines with
  | nil => simp [collectLines]
  | cons l0 rest ih =>
    simp only [collectLines]
    cases hp : processLine parse l0 with
    | none => simp [hp]
    | some r =>
      cases hc : collectLines parse rest with
      | none =>
        have h2 : ∃ l ∈ rest, processLine parse l = none := ih.mp hc
        rcases h2 with ⟨l, hl, hln⟩
        simp only [List.mem_cons]
        constructor
        · intro _; exact ⟨l, Or.inr hl, hln⟩
        · intro _; trivial
      | some rs =>
        have h2 : ¬ ∃ l ∈ rest, processLine parse l = none := by
          rw [← ih]; simp [hc]
        cases r with
        | none =>
          simp only [List.mem_cons]
          constructor
          · intro hfalse; cases hfalse
          · intro hex
            rcases hex with ⟨l, hl, hln⟩
            rcases hl with h1 | h1
            · subst h1; rw [hp] at hln; cases hln
            · exact absurd ⟨l, h1, hln⟩ h2
        | some idn =>
          simp only [List.mem_cons]
          constructor
          · intro hfalse; cases hfalse
          · intro hex
            rcases hex with ⟨l, hl, hln⟩
            rcases hl with h1 | h1
            · subst h1; rw [hp] at hln; cases hln
            · exact absurd ⟨l, h1, hln⟩ h2

/-- Counterexample to C8 as stated: the ripgrep `"begin"` record carries no
file path field, yet `search` does not fail on it — the record is filtered
out before its path is ever extracted, and the query returns the empty set. -/
theorem claim_C8_counterexample :
    extract_path beginRecord typePath = some "begin" ∧
    extract_path beginRecord dataPathText = none ∧
    search exampleParse ["b"] = some (∅ : Finset String) := by decide

/-- C8 (amended): `search` fails as a hard error exactly when some stdout
line is not valid JSON, or some record is missing the type tag (or it is not
a string), or some record whose type tag equals `"match"` is missing the
file path field (or it is not a string).  A non-`"match"` record missing the
file path field is skipped without error. -/
theorem claim_C8_hard_error_iff (parse : String → Option Json)
    (lines : List String) :
    search parse lines = none ↔
      ∃ l ∈ lines, (parse l = none ∨ ∃ j, parse l = some j ∧
        (extract_path j typePath = none ∨
          (extract_path j typePath = some "match" ∧
            extract_path j dataPathText = none))) := by
  have h1 : search parse lines = none ↔ collectLines parse lines = none := by
    simp only [search]
    cases collectLines parse lines <;> simp
  rw [h1, collectLines_eq_none_iff]
  exact exists_congr fun l =>
    and_congr_right fun _ => processLine_eq_none_iff parse l

/-! ### Claims about reconciliation -/

theorem lookup_cons (m c k : String) (store : Store) :
    ((m, c) :: store).lookup k = if k = m then some c else store.lookup k := by
  by_cases h : k = m
  · subst h; simp [List.lookup]
  · simp [List.lookup, beq_eq_false_iff_ne.mpr h, h]

theorem mem_missingOf_iff (remoteLines : List String) (store : Store)
    (k : String) :
    k ∈ missingOf remoteLines store ↔
      k ∈ remoteLines ∧ ¬ k ∈ store.map Prod.fst := by
  simp [missingOf, List.mem_filter, List.mem_dedup, List.elem_iff]

theorem missingOf_nodup (remoteLines : List String) (store : Store) :
    (missingOf remoteLines store).Nodup :=
  (List.nodup_dedup remoteLines).filter _

theorem missingOf_eq_nil (remoteLines : List String) (store : Store)
    (h : ∀ r ∈ remoteLines, r ∈ store.map Prod.fst) :
    missingOf remoteLines store = [] := by
  rw [missingOf, List.filter_eq_nil_iff]
  intro r hr
  have hmem := h r (List.mem_dedup.mp hr)
  simp [List.elem_iff, hmem]

theorem read_and_index_ok_shape (extract : DirEntry → Except Err String)
    (store : Store) (listing : Except Err (List DirEntry)) (name : String)
    (store2 : Store)
    (h : read_and_index extract store listing name = Except.ok store2) :
    ∃ content, store2 = (name, content) :: store ∧
      store.lookup name = none := by
  unfold read_and_index at h
  cases hL : listing with
  | error e => rw [hL] at h; cases h
  | ok entries =>
    rw [hL] at h
    dsimp only at h
    cases hA : assemble extract (List.insertionSort entryLe entries) "" with
    | error e => rw [hA] at h; dsimp only at h; cases h
    | ok content =>
      rw [hA] at h
      dsimp only at h
      unfold upload at h
      by_cases hl : (store.lookup name).isSome = true
      · rw [if_pos hl] at h; cases h
      · rw [if_neg hl] at h
        injection h with h2
        refine ⟨content, h2.symm, ?_⟩
        cases hx : store.lookup name with
        | none => rfl
        | some v => rw [hx] at hl; simp at hl

theorem rehydrateLoop_ok (tempdir : String → Except Err Unit)
    (copyto : String → Except Err CmdOut) (magick : String → Except Err CmdOut)
    (removePdf : String → Except Err Unit)
    (pages : String → Except Err (List DirEntry))
    (extract : DirEntry → Except Err String)
    (pgs : String → List DirEntry) (text : DirEntry → String) :
    ∀ (missing : List String) (store : Store) (pulled : List String),
      missing.Nodup →
      (∀ m ∈ missing, store.lookup m = none) →
      (∀ m ∈ missing, tempdir m = Except.ok ()) →
      (∀ m ∈ missing, ∃ out, copyto m = Except.ok out) →
      (∀ m ∈ missing, ∃ out, magick m = Except.ok out) →
      (∀ m ∈ missing, removePdf m = Except.ok ()) →
      (∀ m ∈ missing, pages m = Except.ok (pgs m)) →
      (∀ m ∈ missing, ∀ e ∈ pgs m, skipped e = false →
        extract e = Except.ok (text e)) →
      ∃ store1,
        rehydrateLoop tempdir copyto magick removePdf pages extract missing
            store pulled = Except.ok (store1, pulled.reverse ++ missing) ∧
        (∀ m ∈ missing, store1.lookup m = some (bodyOf pgs text m)) ∧
        (∀ k, ¬ k ∈ missing → store1.lookup k = store.lookup k) := by
  intro missing
  induction missing with
  | nil =>
    intro store pulled _ _ _ _ _ _ _ _
    refine ⟨store, by simp [rehydrateLoop], by simp, fun k _ => rfl⟩
  | cons m rest ih =>
    intro store pulled hnodup hfresh hT hC hG hR hP hE
    have hm0 : m ∈ m :: rest := List.mem_cons_self m rest
    obtain ⟨cOut, hcOut⟩ := hC m hm0
    obtain ⟨gOut, hgOut⟩ := hG m hm0
    have hstep : rehydrateLoop tempdir copyto magick removePdf pages extract
        (m :: rest) store pulled =
        rehydrateLoop tempdir copyto magick removePdf pages extract rest
          ((m, bodyOf pgs text m) :: store) (m :: pulled) := by
      have hri := read_and_index_ok extract text store (pgs m) m
        (hE m hm0) (hfresh m hm0)
      rw [← hP m hm0] at hri
      simp only [rehydrateLoop, hT m hm0, hcOut, hgOut, hR m hm0, hri, bodyOf]
    have hnd := List.nodup_cons.mp hnodup
    have hfresh2 : ∀ m2 ∈ rest, ((m, bodyOf pgs text m) :: store).lookup m2 = none := by
      intro m2 hm2
      rw [lookup_cons]
      have hne : m2 ≠ m := fun he => hnd.1 (he ▸ hm2)
      rw [if_neg hne]
      exact hfresh m2 (List.mem_cons_of_mem _ hm2)
    obtain ⟨store1, hloop, hlook, hother⟩ := ih ((m, bodyOf pgs text m) :: store)
      (m :: pulled) hnd.2 hfresh2
      (fun m2 hm2 => hT m2 (List.mem_cons_of_mem _ hm2))
      (fun m2 hm2 => hC m2 (List.mem_cons_of_mem _ hm2))
      (fun m2 hm2 => hG m2 (List.mem_cons_of_mem _ hm2))
      (fun m2 hm2 => hR m2 (List.mem_cons_of_mem _ hm2))
      (fun m2 hm2 => hP m2 (List.mem_cons_of_mem _ hm2))
      (fun m2 hm2 => hE m2 (List.mem_cons_of_mem _ hm2))
    refine ⟨store1, ?_, ?_, ?_⟩
    · rw [hstep, hloop]
      simp
    · intro m2 hm2
      rcases List.mem_cons.mp hm2 with h1 | h1
      · subst h1
        rw [hother m2 hnd.1, lookup_cons, if_pos rfl]
      · exact hlook m2 h1
    · intro k hk
      have hkm : k ≠ m := fun he => hk (he ▸ List.mem_cons_self m rest)
      have hkr : ¬ k ∈ rest := fun hr => hk (List.mem_cons_of_mem _ hr)
      rw [hother k hkr, lookup_cons, if_neg hkm]

/-- C2: for every remote listing and local store, `hydrate` pulls exactly
the missing identifiers (remote minus local, as sets), stores each fetched
document under its original remote identifier, leaves every other record
untouched, and on success the local key set equals local ∪ remote. -/
theorem claim_C2_hydrate_converges (remoteLines : List String) (store : Store)
    (tempdir : String → Except Err Unit)
    (copyto : String → Except Err CmdOut) (magick : String → Except Err CmdOut)
    (removePdf : String → Except Err Unit)
    (pages : String → Except Err (List DirEntry))
    (extract : DirEntry → Except Err String)
    (pgs : String → List DirEntry) (text : DirEntry → String)
    (hT : ∀ m ∈ missingOf remoteLines store, tempdir m = Except.ok ())
    (hC : ∀ m ∈ missingOf remoteLines store, ∃ out, copyto m = Except.ok out)
    (hG : ∀ m ∈ missingOf remoteLines store, ∃ out, magick m = Except.ok out)
    (hR : ∀ m ∈ missingOf remoteLines store, removePdf m = Except.ok ())
    (hP : ∀ m ∈ missingOf remoteLines store, pages m = Except.ok (pgs m))
    (hE : ∀ m ∈ missingOf remoteLines store, ∀ e ∈ pgs m,
      skipped e = false → extract e = Except.ok (text e)) :
    ∃ store1,
      rehydrate (Except.ok remoteLines) tempdir copyto magick removePdf pages
          extract store = Except.ok (store1, missingOf remoteLines store) ∧
      (missingOf remoteLines store).toFinset =
        remoteLines.toFinset \ (store.map Prod.fst).toFinset ∧
      (∀ m ∈ missingOf remoteLines store,
        store1.lookup m = some (bodyOf pgs text m)) ∧
      (∀ k, ¬ k ∈ missingOf remoteLines store →
        store1.lookup k = store.lookup k) ∧
      (store1.map Prod.fst).toFinset =
        (store.map Prod.fst).toFinset ∪ remoteLines.toFinset := by
  have hfresh : ∀ m ∈ missingOf remoteLines store, store.lookup m = none := by
    intro m hm
    rw [lookup_eq_none_iff]
    exact ((mem_missingOf_iff remoteLines store m).mp hm).2
  obtain ⟨store1, hloop, hlook, hother⟩ := rehydrateLoop_ok tempdir copyto
    magick removePdf pages extract pgs text (missingOf remoteLines store)
    store [] (missingOf_nodup remoteLines store) hfresh hT hC hG hR hP hE
  refine ⟨store1, ?_, ?_, hlook, hother, ?_⟩
  · show rehydrateLoop tempdir copyto magick removePdf pages extract
        (missingOf remoteLines store) store [] = _
    rw [hloop]
    simp
  · ext k
    simp [mem_missingOf_iff]
  · ext k
    rw [Finset.mem_union, List.mem_toFinset, List.mem_toFinset, List.mem_toFinset]
    by_cases hk : k ∈ missingOf remoteLines store
    · have hm := (mem_missingOf_iff remoteLines store k).mp hk
      have hsome : (store1.lookup k).isSome = true := by rw [hlook k hk]; rfl
      have hk1 : k ∈ store1.map Prod.fst := (lookup_isSome_iff store1 k).mp hsome
      simp [hk1, hm.1]
    · have hiff2 : k ∈ store1.map Prod.fst ↔ k ∈ store.map Prod.fst := by
        rw [← lookup_isSome_iff, ← lookup_isSome_iff, hother k hk]
      rw [hiff2]
      constructor
      · exact fun h1 => Or.inl h1
      · intro h1
        rcases h1 with h1 | h1
        · exact h1
        · by_cases h2 : k ∈ store.map Prod.fst
          · exact h2
          · exact absurd ((mem_missingOf_iff remoteLines store k).mpr ⟨h1, h2⟩) hk

/-- Witness for C2: remote listing `{A, B, C}`, local store `{A}`; hydrate
pulls exactly `B` and `C` under their remote names and the local key set
becomes `{A, B, C}`. -/
theorem claim_C2_witness :
    ∃ store1,
      rehydrate (Except.ok ["A", "B", "C"]) okUnit okCmd okCmd okUnit noPages
          failExtract [("A", "alpha")] = Except.ok (store1, ["B", "C"]) ∧
      (["B", "C"] : List String).toFinset =
        (["A", "B", "C"] : List String).toFinset \
          (([("A", "alpha")] : Store).map Prod.fst).toFinset ∧
      store1.lookup "B" = some "" ∧
      store1.lookup "C" = some "" ∧
      (store1.map Prod.fst).toFinset =
        (([("A", "alpha")] : Store).map Prod.fst).toFinset ∪
          (["A", "B", "C"] : List String).toFinset := by
  obtain ⟨store1, h1, h2, h3, h4, h5⟩ := claim_C2_hydrate_converges
    ["A", "B", "C"] [("A", "alpha")] okUnit okCmd okCmd okUnit noPages
    failExtract (fun _ => []) (fun _ => "") (fun m _ => rfl)
    (fun m _ => ⟨⟨0, ""⟩, rfl⟩) (fun m _ => ⟨⟨0, ""⟩, rfl⟩) (fun m _ => rfl)
    (fun m _ => rfl) (fun m _ e he => absurd he (List.not_mem_nil e))
  exact ⟨store1, h1, h2, h3 "B" (by decide), h3 "C" (by decide), h5⟩

theorem rehydrateLoop_preserves (tempdir : String → Except Err Unit)
    (copyto : String → Except Err CmdOut) (magick : String → Except Err CmdOut)
    (removePdf : String → Except Err Unit)
    (pages : String → Except Err (List DirEntry))
    (extract : DirEntry → Except Err String) :
    ∀ (ms : List String) (store : Store) (pulled : List String)
      (store1 : Store) (res : List String),
      rehydrateLoop tempdir copyto magick removePdf pages extract ms store
          pulled = Except.ok (store1, res) →
      (∀ m ∈ ms, (store1.lookup m).isSome = true) ∧
      (∀ k, (store.lookup k).isSome = true → (store1.lookup k).isSome = true) := by
  intro ms
  induction ms with
  | nil =>
    intro store pulled store1 res h
    simp only [rehydrateLoop, Except.ok.injEq, Prod.mk.injEq] at h
    constructor
    · intro m hm; cases hm
    · intro k hk
      rw [← h.1]
      exact hk
  | cons m rest ih =>
    intro store pulled store1 res h
    simp only [rehydrateLoop] at h
    cases hT : tempdir m with
    | error e => rw [hT] at h; cases h
    | ok u =>
      rw [hT] at h
      dsimp only at h
      cases hC : copyto m with
      | error e => rw [hC] at h; cases h
      | ok c1 =>
        rw [hC] at h
        dsimp only at h
        cases hG : magick m with
        | error e => rw [hG] at h; cases h
        | ok c2 =>
          rw [hG] at h
          dsimp only at h
          cases hR : removePdf m with
          | error e => rw [hR] at h; cases h
          | ok u2 =>
            rw [hR] at h
            dsimp only at h
            cases hri : read_and_index extract store (pages m) m with
            | error e => rw [hri] at h; cases h
            | ok store2 =>
              rw [hri] at h
              dsimp only at h
              obtain ⟨content, hshape, _⟩ :=
                read_and_index_ok_shape extract store (pages m) m store2 hri
              have hrec := ih store2 (m :: pulled) store1 res h
              constructor
              · intro m2 hm2
                rcases List.mem_cons.mp hm2 with h1 | h1
                · subst h1
                  apply hrec.2
                  rw [hshape, lookup_cons, if_pos rfl]
                  rfl
                · exact hrec.1 m2 h1
              · intro k hk
                apply hrec.2
                rw [hshape, lookup_cons]
                by_cases hkm : k = m
                · rw [if_pos hkm]; rfl
                · rw [if_neg hkm]; exact hk

/-- C3: when the local identifiers form a superset of the remote listing,
`hydrate` performs no work at all — it succeeds with the store unchanged and
zero pulled items, whatever the fetch collaborators would do; and after any
successful `hydrate`, an immediately repeated `hydrate` (with any
collaborators) does no work the second time. -/
theorem claim_C3_hydrate_idempotent (remoteLines : List String) (store : Store)
    (tempdir : String → Except Err Unit)
    (copyto : String → Except Err CmdOut) (magick : String → Except Err CmdOut)
    (removePdf : String → Except Err Unit)
    (pages : String → Except Err (List DirEntry))
    (extract : DirEntry → Except Err String) :
    ((∀ r ∈ remoteLines, r ∈ store.map Prod.fst) →
      rehydrate (Except.ok remoteLines) tempdir copyto magick removePdf pages
          extract store = Except.ok (store, [])) ∧
    (∀ (store1 : Store) (pulled : List String),
      rehydrate (Except.ok remoteLines) tempdir copyto magick removePdf pages
          extract store = Except.ok (store1, pulled) →
      ∀ (tempdir2 : String → Except Err Unit)
        (copyto2 magick2 : String → Except Err CmdOut)
        (removePdf2 : String → Except Err Unit)
        (pages2 : String → Except Err (List DirEntry))
        (extract2 : DirEntry → Except Err String),
        rehydrate (Except.ok remoteLines) tempdir2 copyto2 magick2 removePdf2
            pages2 extract2 store1 = Except.ok (store1, [])) := by
  constructor
  · intro hsub
    have hcast : rehydrate (Except.ok remoteLines) tempdir copyto magick
        removePdf pages extract store =
        rehydrateLoop tempdir copyto magick removePdf pages extract
          (missingOf remoteLines store) store [] := rfl
    rw [hcast, missingOf_eq_nil remoteLines store hsub]
    rfl
  · intro store1 pulled h tempdir2 copyto2 magick2 removePdf2 pages2 extract2
    have hcast : rehydrate (Except.ok remoteLines) tempdir copyto magick
        removePdf pages extract store =
        rehydrateLoop tempdir copyto magick removePdf pages extract
          (missingOf remoteLines store) store [] := rfl
    rw [hcast] at h
    have hpres := rehydrateLoop_preserves tempdir copyto magick removePdf
      pages extract (missingOf remoteLines store) store [] store1 pulled h
    have hsup : ∀ r ∈ remoteLines, r ∈ store1.map Prod.fst := by
      intro r hr
      by_cases hrk : r ∈ store.map Prod.fst
      · exact (lookup_isSome_iff store1 r).mp
          (hpres.2 r ((lookup_isSome_iff store r).mpr hrk))
      · have hrm : r ∈ missingOf remoteLines store :=
          (mem_missingOf_iff remoteLines store r).mpr ⟨hr, hrk⟩
        exact (lookup_isSome_iff store1 r).mp (hpres.1 r hrm)
    have hcast2 : rehydrate (Except.ok remoteLines) tempdir2 copyto2 magick2
        removePdf2 pages2 extract2 store1 =
        rehydrateLoop tempdir2 copyto2 magick2 removePdf2 pages2 extract2
          (missingOf remoteLines store1) store1 [] := rfl
    rw [hcast2, missingOf_eq_nil remoteLines store1 hsup]
    rfl

/-- Witness for C3: remote listing `{A}` with `A` already local; hydrate
does no work even though every fetch collaborator would fail if invoked. -/
theorem claim_C3_witness :
    rehydrate (Except.ok ["A"]) failUnit failCmd failCmd failUnit failPages
        failExtract [("A", "alpha")] = Except.ok ([("A", "alpha")], []) :=
  (claim_C3_hydrate_idempotent ["A"] [("A", "alpha")] failUnit failCmd failCmd
    failUnit failPages failExtract).1 (by decide)

/-! ### Claims about error propagation -/

/-- Counterexample to C7 as stated: the rasterizer and the remote copy both
run and exit with status `1`, yet `scan` completes successfully — the exit
status of an external tool is never inspected, so a non-zero exit does not
abort the command and is not surfaced. -/
theorem claim_C7_counterexample :
    scan failExtract [] (Except.ok []) "2024_01_01_00_00_00" (Except.ok ())
        (Except.ok ⟨1, "magick: delegate failed"⟩)
        (Except.ok ⟨1, "rclone: connection error"⟩) (Except.ok false)
        (Except.ok ()) =
      Except.ok [("2024_01_01_00_00_00.pdf", "")] := by decide

/-- C7 (amended): every failure that surfaces as an error value — directory
listing, OCR, duplicate identifier, a failed spawn of an external tool, the
tempdir, the prompt, or the source deletion — aborts the current top-level
command and propagates with no retry: `scan` succeeds exactly when every
step yields an `ok` value; `hydrate` aborts with the offending error on a
failed remote listing and on the first failing per-item step (tempdir,
`copyto` or `magick` spawn, intermediate-file removal, or the per-item
re-index, which covers listing and OCR failures); a panicking line aborts
the whole `search` query with no partial result.  But an external tool that
runs and exits non-zero is not detected: exit statuses are never
inspected. -/
theorem claim_C7_error_propagation (extract : DirEntry → Except Err String)
    (store : Store) (listing : Except Err (List DirEntry)) (timestamp : String)
    (tempdirRes : Except Err Unit) (magick : Except Err CmdOut)
    (rcloneCopy : Except Err CmdOut) (confirm : Except Err Bool)
    (deleteScans : Except Err Unit)
    (remoteLines : List String) (err : Err)
    (tempdir : String → Except Err Unit)
    (copyto magick2 : String → Except Err CmdOut)
    (removePdf : String → Except Err Unit)
    (pages : String → Except Err (List DirEntry))
    (m : String) (rest : List String)
    (parse : String → Option Json) (stdoutLines : List String)
    (line : String) :
    ((scan extract store listing timestamp tempdirRes magick rcloneCopy
        confirm deleteScans).isOk = true ↔
      ((read_and_index extract store listing (timestamp ++ ".pdf")).isOk = true ∧
        tempdirRes.isOk = true ∧ magick.isOk = true ∧ rcloneCopy.isOk = true ∧
        confirm.isOk = true ∧
        (confirm = Except.ok true → deleteScans.isOk = true))) ∧
    (rehydrate (Except.error err) tempdir copyto magick2 removePdf pages
        extract store = Except.error err) ∧
    (missingOf remoteLines store = m :: rest →
      (tempdir m = Except.error err →
        rehydrate (Except.ok remoteLines) tempdir copyto magick2 removePdf
          pages extract store = Except.error err) ∧
      (tempdir m = Except.ok () → copyto m = Except.error err →
        rehydrate (Except.ok remoteLines) tempdir copyto magick2 removePdf
          pages extract store = Except.error err) ∧
      (tempdir m = Except.ok () → (∃ c, copyto m = Except.ok c) →
        magick2 m = Except.error err →
        rehydrate (Except.ok remoteLines) tempdir copyto magick2 removePdf
          pages extract store = Except.error err) ∧
      (tempdir m = Except.ok () → (∃ c, copyto m = Except.ok c) →
        (∃ c, magick2 m = Except.ok c) → removePdf m = Except.error err →
        rehydrate (Except.ok remoteLines) tempdir copyto magick2 removePdf
          pages extract store = Except.error err) ∧
      (tempdir m = Except.ok () → (∃ c, copyto m = Except.ok c) →
        (∃ c, magick2 m = Except.ok c) → removePdf m = Except.ok () →
        read_and_index extract store (pages m) m = Except.error err →
        rehydrate (Except.ok remoteLines) tempdir copyto magick2 removePdf
          pages extract store = Except.error err)) ∧
    (line ∈ stdoutLines → processLine parse line = none →
      search parse stdoutLines = none) := by
  refine ⟨?_, rfl, ?_, ?_⟩
  · unfold scan
    cases read_and_index extract store listing (timestamp ++ ".pdf") with
    | error e => simp [Except.isOk, Except.toBool]
    | ok store2 =>
      cases tempdirRes with
      | error e => simp [Except.isOk, Except.toBool]
      | ok u =>
        cases magick with
        | error e => simp [Except.isOk, Except.toBool]
        | ok c1 =>
          cases rcloneCopy with
          | error e => simp [Except.isOk, Except.toBool]
          | ok c2 =>
            cases confirm with
            | error e => simp [Except.isOk, Except.toBool]
            | ok del =>
              cases del with
              | false => simp [Except.isOk, Except.toBool]
              | true =>
                cases deleteScans with
                | error e => simp [Except.isOk, Except.toBool]
                | ok u2 => simp [Except.isOk, Except.toBool]
  · intro hmiss
    have hcast : rehydrate (Except.ok remoteLines) tempdir copyto magick2
        removePdf pages extract store =
        rehydrateLoop tempdir copyto magick2 removePdf pages extract
          (missingOf remoteLines store) store [] := rfl
    rw [hcast, hmiss]
    refine ⟨?_, ?_, ?_, ?_, ?_⟩
    · intro hT
      simp [rehydrateLoop, hT]
    · intro hT hC
      simp [rehydrateLoop, hT, hC]
    · intro hT hCex hG
      obtain ⟨c1, hC⟩ := hCex
      simp [rehydrateLoop, hT, hC, hG]
    · intro hT hCex hGex hR
      obtain ⟨c1, hC⟩ := hCex
      obtain ⟨c2, hG⟩ := hGex
      simp [rehydrateLoop, hT, hC, hG, hR]
    · intro hT hCex hGex hR hRI
      obtain ⟨c1, hC⟩ := hCex
      obtain ⟨c2, hG⟩ := hGex
      simp [rehydrateLoop, hT, hC, hG, hR, hRI]
  · intro hl hpl
    have hnone : collectLines parse stdoutLines = none :=
      (collectLines_eq_none_iff parse stdoutLines).mpr ⟨line, hl, hpl⟩
    simp [search, hnone]

/-- Witness for C7 (amended), at concrete inputs: a failed rasterizer spawn
makes `scan` fail; a failed `rclone copyto` spawn on the first missing item
aborts the whole `hydrate` run with that error; an OCR failure during an
item's re-index likewise aborts `hydrate`; and one unparseable line makes
the whole `search` query fail. -/
theorem claim_C7_witness :
    (scan failExtract [] (Except.ok []) "2024_01_01_00_00_00" (Except.ok ())
        (Except.error (Err.spawnError "magick")) (Except.ok ⟨0, ""⟩)
        (Except.ok false) (Except.ok ())).isOk = false ∧
    rehydrate (Except.ok ["B"]) okUnit failCmd okCmd okUnit noPages
        failExtract [] = Except.error (Err.spawnError "rclone") ∧
    rehydrate (Except.ok ["B"]) okUnit okCmd okCmd okUnit
        (fun _ => Except.ok [pageA]) failExtract [] =
      Except.error (Err.ocrError "tesseract missing") ∧
    search exampleParse ["zzz"] = none := by
  refine ⟨?_, ?_, ?_, ?_⟩
  · have h := (claim_C7_error_propagation failExtract [] (Except.ok [])
      "2024_01_01_00_00_00" (Except.ok ())
      (Except.error (Err.spawnError "magick")) (Except.ok ⟨0, ""⟩)
      (Except.ok false) (Except.ok ()) [] (Err.spawnError "magick") okUnit
      okCmd okCmd okUnit noPages "B" [] exampleParse [] "").1
    rw [Bool.eq_false_iff]
    intro hok
    have h2 := (h.mp hok).2.2.1
    cases h2
  · exact ((claim_C7_error_propagation failExtract [] (Except.ok []) ""
      (Except.ok ()) (Except.ok ⟨0, ""⟩) (Except.ok ⟨0, ""⟩) (Except.ok false)
      (Except.ok ()) ["B"] (Err.spawnError "rclone") okUnit failCmd okCmd
      okUnit noPages "B" [] exampleParse [] "").2.2.1
      (by decide)).2.1 rfl rfl
  · exact ((claim_C7_error_propagation failExtract [] (Except.ok []) ""
      (Except.ok ()) (Except.ok ⟨0, ""⟩) (Except.ok ⟨0, ""⟩) (Except.ok false)
      (Except.ok ()) ["B"] (Err.ocrError "tesseract missing") okUnit okCmd
      okCmd okUnit (fun _ => Except.ok [pageA]) "B" [] exampleParse []
      "").2.2.1 (by decide)).2.2.2.2 rfl ⟨⟨0, ""⟩, rfl⟩ ⟨⟨0, ""⟩, rfl⟩ rfl
      (by decide)
  · exact (claim_C7_error_propagation failExtract [] (Except.ok []) ""
      (Except.ok ()) (Except.ok ⟨0, ""⟩) (Except.ok ⟨0, ""⟩) (Except.ok false)
      (Except.ok ()) [] (Err.ioError "x") okUnit okCmd okCmd okUnit noPages
      "B" [] exampleParse ["zzz"] "zzz").2.2.2 (by decide) (by decide)

end Kartka
